import Mathlib

/-!
Verification of the `mallory` GAE proxy engine (`gae.go`).

The development shallowly embeds the two operations of `EngineGAE`:

* `Serve`  — the plain (non-CONNECT) relay: serialize the client request in
  proxy form, POST it to the GAE endpoint, read the embedded response back,
  copy headers and status, then stream the body.
* `Connect` — the CONNECT tunnel: port check, hijack, dial, `200 OK`
  acknowledgement, certificate lookup, TLS handshake, then two concurrent
  loops (request-reading "upstream" and response-writing "downstream")
  coordinated by a channel of capacity 8.

Fallible external calls (`net.SplitHostPort`, `Hijack`, `net.Dial`,
`CertPool.Get`, `Handshake`, `http.ReadRequest`, `url.Parse`,
`WriteProxy`, `http.ReadResponse`, `Response.Write`, `io.Copy`,
`http.Post`) are modelled by an environment that supplies each call's
outcome; each embedded function returns the ordered trace of observable
actions (I/O attempts and `Session` log calls) that the Go code performs
for those outcomes.  The relay phase is modelled as a small-step system:
one step function per loop, driven by an arbitrary interleaving schedule,
with the channel as an explicit bounded FIFO list.
-/

namespace Mallory

/-! ## Sequential part of `EngineGAE.Connect` (gae.go lines 141-208) -/

/-- Observable actions of the sequential prologue of `Connect`:
log calls on the `Session`, the `Hijack` attempt, the `net.Dial` attempt,
bytes written to the hijacked client connection, the certificate-pool
lookup, the TLS handshake attempt, and entry into the relay phase. -/
inductive CEv where
  | errLog (m : String)
  | hijack
  | dial
  | writeClient (bytes : String)
  | certGet (host : String)
  | handshake
  | enterRelay
  deriving DecidableEq

/-- Outcomes of the external calls made by the prologue of `Connect`.
`split` is the result of `net.SplitHostPort(r.URL.Host)`; the `Option
String` fields are `none` on success and `some errMsg` on failure,
matching the Go `err` values whose `Error()` text is interpolated into
the `Session.Error` calls. -/
structure ConnEnv where
  method : String
  split : Except String (String × String)
  hijackSupported : Bool
  hijackErr : Option String
  dialErr : Option String
  certErr : Option String
  handshakeErr : Option String

/-- The literal acknowledgement bytes written on the hijacked connection
(gae.go line 184). -/
def ok200 : String := "HTTP/1.1 200 OK\r\n\r\n"

/-- Trace of the sequential prologue of `EngineGAE.Connect`
(gae.go lines 141-208), one action per external call in source order:
method check, `SplitHostPort`, port check, `Hijacker` capability check,
`Hijack`, `Dial`, the literal `200 OK` write, `Certs.Get(host)`,
TLS `Handshake`, then the relay phase. -/
def connectPrologue (e : ConnEnv) : List CEv :=
  if e.method = "CONNECT" then
    match e.split with
    | .error m => [.errLog ("SplitHostPort: " ++ m)]
    | .ok (host, port) =>
      if port = "443" then
        if e.hijackSupported then
          [CEv.hijack] ++
          match e.hijackErr with
          | some m => [.errLog ("Hijack: " ++ m)]
          | none =>
            [CEv.dial] ++
            match e.dialErr with
            | some m => [.errLog ("Dial: " ++ m)]
            | none =>
              [CEv.writeClient ok200, CEv.certGet host] ++
              match e.certErr with
              | some m => [.errLog ("CertPool.Get: " ++ m)]
              | none =>
                [CEv.handshake] ++
                match e.handshakeErr with
                | some m => [.errLog ("Handshake: " ++ m)]
                | none => [CEv.enterRelay]
        else [.errLog "Server does not support Hijacker"]
      else [.errLog ("unsupported CONNECT port: " ++ port)]
  else [.errLog "this function can only handle CONNECT method"]

/-! ## `EngineGAE.Serve` (gae.go lines 60-117) -/

/-- Observable actions of `Serve`: log calls, the `WriteProxy`
serialization of the client request into the buffer, the `http.Post` of
that buffer to the GAE url, the successful `http.ReadResponse` of the
embedded response, `CopyHeader`, `WriteHeader`, the `io.Copy` of the
body, and the final `Session.Info` record. -/
inductive SEv where
  | errLog (m : String)
  | writeProxyBuf (bytes : String)
  | post (u : String) (body : String)
  | readRespOk
  | copyHeader
  | writeHeader (code : Nat)
  | copyBody
  | infoLog (status : String)
  deriving DecidableEq

/-- Outcomes of the external calls made by `Serve`.  `proxyBytes` is the
client-to-proxy wire serialization produced by `r.WriteProxy` (which
keeps the full request URI); `postStatusCode`/`postStatus` describe the
GAE response; `cresStatusCode` is the status of the embedded response
read back by `http.ReadResponse`. -/
structure ServeEnv where
  method : String
  appSpot : String
  proxyBytes : String
  writeProxyErr : Option String
  postErr : Option String
  postStatusCode : Nat
  postStatus : String
  readRespErr : Option String
  cresStatusCode : Nat
  copyErr : Option String

/-- The upstream endpoint `Serve` posts to (gae.go lines 78-82). -/
def gaeURL (e : ServeEnv) : String :=
  if e.appSpot = "debug" then "http://localhost:8080/http"
  else "https://" ++ e.appSpot ++ ".appspot.com/http"

/-- Trace of `EngineGAE.Serve` (gae.go lines 60-117), one action per
call in source order: method check, `WriteProxy` into the buffer,
`http.Post`, the 500 check, `http.ReadResponse`, `CopyHeader`,
`WriteHeader`, `io.Copy`, final info record. -/
def serve (e : ServeEnv) : List SEv :=
  if e.method = "CONNECT" then
    [.errLog "this function can not handle CONNECT method"]
  else
    match e.writeProxyErr with
    | some m => [.errLog ("WriteProxy: " ++ m)]
    | none =>
      [SEv.writeProxyBuf e.proxyBytes, SEv.post (gaeURL e) e.proxyBytes] ++
      match e.postErr with
      | some m => [.errLog ("Post: " ++ m)]
      | none =>
        if e.postStatusCode = 500 then
          [.errLog (e.method ++ " " ++ e.postStatus)]
        else
          match e.readRespErr with
          | some m => [.errLog ("ReadResponse: " ++ m)]
          | none =>
            [SEv.readRespOk, SEv.copyHeader,
             SEv.writeHeader e.cresStatusCode, SEv.copyBody] ++
            match e.copyErr with
            | some m => [.errLog ("Copy: " ++ m)]
            | none => [SEv.infoLog e.postStatus]

/-! ## Relay phase of `EngineGAE.Connect` (gae.go lines 210-277)

After a successful handshake, `Connect` runs two loops concurrently:

* an upstream goroutine (lines 214-245): `http.ReadRequest` from the TLS
  client connection, rewrite the URL to `https://host + URI` (the
  `url.Parse` error being overwritten unchecked by the following
  assignment), set the `Mallory-Session` header, `WriteProxy` onto the
  backend connection, send the request on `rch` (a channel of capacity 8,
  line 213), and stop on read error (EOF unlogged), write error, or
  `creq.Close`, closing `rch` by `defer` on every exit;
* the downstream loop in the main goroutine (lines 247-275): receive the
  next request from `rch` (stopping when the closed channel is drained),
  `http.ReadResponse` from the backend, write the response back on the
  TLS client connection (EOF unlogged), and stop on error or
  `cresp.Close`; the final `s.Info("CLOSE ...")` (line 277) runs when
  this loop exits.

Requests are numbered 0,1,2,... in the order the upstream loop reads
them; the channel is an explicit FIFO list of those numbers. -/

/-- Result of `http.ReadRequest` for the n-th read attempt of the
upstream loop: a parsed request carrying its original request-URI string
(`creq.URL.String()`) and its `Close` flag, or `io.EOF`, or another
parse error. -/
inductive ReadReqRes where
  | ok (urlStr : String) (closeAfter : Bool)
  | eof
  | err (m : String)

/-- Result of `http.ReadResponse` for the n-th response read by the
downstream loop: a parsed response carrying its `Close` flag, or an
error. -/
inductive ReadRespRes where
  | ok (closeAfter : Bool)
  | err (m : String)

/-- Result of `cresp.Write(sconn)` for the n-th response: success,
`io.EOF` (client closed while being written to), or another error. -/
inductive WriteDownRes where
  | ok
  | eof
  | err (m : String)

/-- Outcomes of the external calls of the relay phase, indexed by
request number, plus the data fixed at tunnel start: `host` (from
`SplitHostPort`) and the `Session` id `sid`.  `parseOk n` tells whether
`url.Parse("https://" + host + creq.URL.String())` succeeds for request
n (on failure `url.Parse` returns a nil URL); `writeUp n` is the
`WriteProxy` error, if any. -/
structure TunnelEnv where
  host : String
  sid : Int
  reqs : Nat → ReadReqRes
  parseOk : Nat → Bool
  writeUp : Nat → Option String
  resps : Nat → ReadRespRes
  writeDown : Nat → WriteDownRes

/-- The request object the upstream loop forwards with `WriteProxy`
after rewriting: its URL field (`none` models the nil URL left by a
failed `url.Parse`) and the value of the `Mallory-Session` header set on
it. -/
structure FwdReq where
  url : Option String
  sess : String
  deriving DecidableEq

/-- The rewrite performed at gae.go lines 227-228: `creq.URL` becomes
the parse of `"https://" + host + creq.URL.String()` (nil when the parse
fails), and the `Mallory-Session` header is set to
`strconv.FormatInt(s.ID, 10)`. -/
def mkFwd (env : TunnelEnv) (n : Nat) (u : String) : FwdReq :=
  { url := if env.parseOk n then some ("https://" ++ env.host ++ u) else none
    sess := toString env.sid }

/-- The original request-URI string of the n-th client request (empty
when the n-th read does not return a request). -/
def reqUrl (env : TunnelEnv) (n : Nat) : String :=
  match env.reqs n with
  | .ok u _ => u
  | _ => ""

/-- The `Close` flag of the n-th client request. -/
def reqClose (env : TunnelEnv) (n : Nat) : Bool :=
  match env.reqs n with
  | .ok _ c => c
  | _ => false

/-- The `Close` flag of the n-th backend response. -/
def respClose (env : TunnelEnv) (n : Nat) : Bool :=
  match env.resps n with
  | .ok c => c
  | _ => false

/-- Observable actions of the relay phase: `Session.Error` calls,
successful `ReadRequest`s (`readReq n`), the EOF that ends reading
(`readReqEOF`), the `WriteProxy` call for request n with the forwarded
request object (`writeUpCall`), the channel send (`enq`), the `defer`red
channel close (`closeCh`), the channel receive (`recv`), observing the
closed channel (`chClosed`), successful `ReadResponse`s (`readResp n`),
successful response writes to the client (`writeResp n`), the EOF on
such a write (`writeRespEOF`), and the final `s.Info("CLOSE ...")`
record (`infoClose`). -/
inductive TEv where
  | errLog (m : String)
  | readReq (n : Nat)
  | readReqEOF
  | writeUpCall (n : Nat) (fr : FwdReq)
  | enq (n : Nat)
  | closeCh
  | recv (n : Nat)
  | chClosed
  | readResp (n : Nat)
  | writeResp (n : Nat)
  | writeRespEOF
  | infoClose
  deriving DecidableEq

/-- Control state of the upstream goroutine: about to `ReadRequest` the
n-th request, about to send the already-forwarded n-th request on the
channel, or exited (having enqueued n requests in total, the channel
being closed by `defer`). -/
inductive UpSt where
  | read (n : Nat)
  | send (n : Nat)
  | done (n : Nat)
  deriving DecidableEq

/-- Control state of the downstream loop: about to receive from the
channel after d fully completed iterations, or exited after d receives
in total. -/
inductive DownSt where
  | recv (d : Nat)
  | done (d : Nat)
  deriving DecidableEq

/-- Joint state of the relay phase: both loops' control states, the
contents of the capacity-8 channel `rch` (request numbers, FIFO), and
the trace of actions performed so far. -/
structure TState where
  up : UpSt
  queue : List Nat
  down : DownSt
  trace : List TEv
  deriving DecidableEq

/-- Total number of requests the upstream loop has enqueued. -/
def enqCount : UpSt → Nat
  | .read n => n
  | .send n => n
  | .done n => n

/-- Total number of requests the downstream loop has received. -/
def deqCount : DownSt → Nat
  | .recv d => d
  | .done d => d

/-- One step of the upstream goroutine (gae.go lines 214-245).  In state
`read n` it performs `ReadRequest`, the URL rewrite, the header set and
`WriteProxy` (the loop body up to the channel send); in state `send n`
it performs `rch <- creq`, which blocks (no state change) while the
buffered channel holds 8 requests, and then checks `creq.Close`.  Every
exit appends `closeCh` for the `defer close(rch)` (line 216). -/
def upStep (env : TunnelEnv) (s : TState) : TState :=
  match s.up with
  | .read n =>
    match env.reqs n with
    | .eof =>
      { s with up := .done n, trace := s.trace ++ [.readReqEOF, .closeCh] }
    | .err m =>
      { s with up := .done n
               trace := s.trace ++ [.errLog ("ReadRequest: " ++ m), .closeCh] }
    | .ok u _ =>
      match env.writeUp n with
      | some m =>
        { s with up := .done n
                 trace := s.trace ++ [.readReq n, .writeUpCall n (mkFwd env n u),
                   .errLog ("WriteProxy: " ++ m), .closeCh] }
      | none =>
        { s with up := .send n
                 trace := s.trace ++ [.readReq n, .writeUpCall n (mkFwd env n u)] }
  | .send n =>
    if s.queue.length < 8 then
      if reqClose env n then
        { s with up := .done (n + 1), queue := s.queue ++ [n]
                 trace := s.trace ++ [.enq n, .closeCh] }
      else
        { s with up := .read (n + 1), queue := s.queue ++ [n]
                 trace := s.trace ++ [.enq n] }
    else s
  | .done _ => s

/-- One step of the downstream loop (gae.go lines 247-275): receive the
next request from the channel (blocking while the channel is empty and
the upstream goroutine is still running; observing closure once it is
empty and closed), `ReadResponse` from the backend, write the response
to the client, and check `cresp.Close`.  Every exit appends `infoClose`
for the `s.Info("CLOSE ...")` call that follows the loop (line 277). -/
def downStep (env : TunnelEnv) (s : TState) : TState :=
  match s.down with
  | .done _ => s
  | .recv d =>
    match s.queue with
    | [] =>
      match s.up with
      | .done _ =>
        { s with down := .done d, trace := s.trace ++ [.chClosed, .infoClose] }
      | _ => s
    | m :: rest =>
      match env.resps m with
      | .err msg =>
        { s with down := .done (d + 1), queue := rest
                 trace := s.trace ++ [.recv m,
                   .errLog ("ReadResponse: " ++ msg), .infoClose] }
      | .ok rc =>
        match env.writeDown m with
        | .eof =>
          { s with down := .done (d + 1), queue := rest
                   trace := s.trace ++ [.recv m, .readResp m,
                     .writeRespEOF, .infoClose] }
        | .err msg =>
          { s with down := .done (d + 1), queue := rest
                   trace := s.trace ++ [.recv m, .readResp m,
                     .errLog ("Write: " ++ msg), .infoClose] }
        | .ok =>
          if rc then
            { s with down := .done (d + 1), queue := rest
                     trace := s.trace ++ [.recv m, .readResp m,
                       .writeResp m, .infoClose] }
          else
            { s with down := .recv (d + 1), queue := rest
                     trace := s.trace ++ [.recv m, .readResp m, .writeResp m] }

/-- Scheduler choice: which of the two concurrent loops runs next. -/
inductive Choice where
  | up
  | down
  deriving DecidableEq

/-- One interleaving step of the relay phase. -/
def tstep (env : TunnelEnv) (s : TState) : Choice → TState
  | .up => upStep env s
  | .down => downStep env s

/-- Initial state of the relay phase: both loops at their first
iteration, empty channel, empty trace. -/
def tinit : TState := ⟨.read 0, [], .recv 0, []⟩

/-- The relay state reached from `tinit` under a given interleaving. -/
def trun (env : TunnelEnv) (sched : List Choice) : TState :=
  sched.foldl (tstep env) tinit

/-! ## Trace predicates and the reachability invariant -/

/-- Predicate `before t e f`: in trace `t`, every occurrence of `f` is preceded by
an occurrence of `e`. -/
def before (t : List TEv) (e f : TEv) : Prop :=
  ∀ l1 l2, t = l1 ++ f :: l2 → e ∈ l1

/-- The four ways the upstream loop can exit, read off the events just
before the channel close: EOF on `ReadRequest` (unlogged), another
`ReadRequest` error (logged), a `WriteProxy` error (logged), or a parsed
request that declares `Close` (exiting right after its channel send). -/
def UpCause (env : TunnelEnv) (l1 : List TEv) : Prop :=
  (∃ l, l1 = l ++ [TEv.readReqEOF]) ∨
  (∃ l m, l1 = l ++ [TEv.errLog ("ReadRequest: " ++ m)]) ∨
  (∃ l n fr m, l1 = l ++ [TEv.readReq n, TEv.writeUpCall n fr,
      TEv.errLog ("WriteProxy: " ++ m)]) ∨
  (∃ l n, l1 = l ++ [TEv.enq n] ∧ reqClose env n = true)

/-- The five ways the downstream loop can exit, read off the events just
before its final info record: the closed channel observed after
draining, a `ReadResponse` error (logged), EOF while writing the
response to the client (unlogged), another write error (logged), or a
response that declares `Close` (exiting right after writing it). -/
def DownCause (env : TunnelEnv) (l1 : List TEv) : Prop :=
  (∃ l, l1 = l ++ [TEv.chClosed]) ∨
  (∃ l n m, l1 = l ++ [TEv.recv n, TEv.errLog ("ReadResponse: " ++ m)]) ∨
  (∃ l n, l1 = l ++ [TEv.recv n, TEv.readResp n, TEv.writeRespEOF]) ∨
  (∃ l n m, l1 = l ++ [TEv.recv n, TEv.readResp n,
      TEv.errLog ("Write: " ++ m)]) ∨
  (∃ l n, l1 = l ++ [TEv.recv n, TEv.readResp n, TEv.writeResp n] ∧
      respClose env n = true)

/-- Classifier for channel-send events. -/
def isEnq : TEv → Bool
  | .enq _ => true
  | _ => false

/-- Classifier for channel-receive events. -/
def isRecv : TEv → Bool
  | .recv _ => true
  | _ => false

/-- Classifier for `Session.Error` events. -/
def isErrLog : TEv → Bool
  | .errLog _ => true
  | _ => false

/-- Classifier for the successful read of client request `n`. -/
def isReadReq (n : Nat) : TEv → Bool
  | .readReq m => m == n
  | _ => false

/-- Invariant of the relay-phase step system, holding in every reachable
state: the channel is a consecutive run of request numbers starting at
the downstream receive count, its size balances the two loops' counters
and never exceeds the capacity 8, responses are written back in request
order, each loop has exited exactly when its closing trace event is
present, every exit has one of the admissible causes, the trace's
send/receive counts agree with the loop counters, the closed channel is
only ever observed closed and drained, and every forwarded request is
the rewrite of the corresponding parsed request. -/
structure Inv (env : TunnelEnv) (s : TState) : Prop where
  qshape : s.queue = List.range' (deqCount s.down) s.queue.length
  qcount : deqCount s.down + s.queue.length = enqCount s.up
  qcap : s.queue.length ≤ 8
  lowDone : ∀ d, s.down = .recv d → ∀ j, j < d → TEv.writeResp j ∈ s.trace
  ord : ∀ n, before s.trace (.writeResp n) (.readResp (n + 1)) ∧
      before s.trace (.writeResp n) (.writeResp (n + 1))
  upDone : (∃ n, s.up = .done n) ↔ TEv.closeCh ∈ s.trace
  upCause : ∀ l1 l2, s.trace = l1 ++ TEv.closeCh :: l2 → UpCause env l1
  downDone : (∃ d, s.down = .done d) ↔ TEv.infoClose ∈ s.trace
  downCause : ∀ l1 l2, s.trace = l1 ++ TEv.infoClose :: l2 → DownCause env l1
  cntEnq : s.trace.countP isEnq = enqCount s.up
  cntRecv : s.trace.countP isRecv = deqCount s.down
  drained : ∀ l1 l2, s.trace = l1 ++ TEv.chClosed :: l2 →
      TEv.closeCh ∈ l1 ∧ l1.countP isEnq = l1.countP isRecv
  fwdChar : ∀ n fr, TEv.writeUpCall n fr ∈ s.trace →
      fr = mkFwd env n (reqUrl env n)

/-! ## Concrete environments used in the witness instances -/

/-- A pipelining client: two requests on one tunnel, the second
declaring `Close`; every external call succeeds. -/
def env1 : TunnelEnv where
  host := "h"
  sid := 1
  reqs := fun n =>
    if n = 0 then .ok "/a" false else if n = 1 then .ok "/b" true else .eof
  parseOk := fun _ => true
  writeUp := fun _ => none
  resps := fun _ => .ok false
  writeDown := fun _ => .ok

/-- Interleaving for `env1`: the upstream loop reads and forwards both
requests, then the downstream loop answers both. -/
def sched1 : List Choice := [.up, .up, .up, .up, .down, .down]

/-- Schedule `sched1` followed by the downstream step that observes the closed,
drained channel. -/
def sched7 : List Choice := sched1 ++ [.down]

/-- The forwarded form of `env1`'s first request. -/
def fr0 : FwdReq := { url := some "https://h/a", sess := "1" }

/-- The forwarded form of `env1`'s second request. -/
def fr1 : FwdReq := { url := some "https://h/b", sess := "1" }

/-- The trace reached by `trun env1 sched1`, split around the events the
witness instances pick out. -/
def ordL1 : List TEv :=
  [.readReq 0, .writeUpCall 0 fr0, .enq 0, .readReq 1, .writeUpCall 1 fr1,
   .enq 1, .closeCh, .recv 0, .readResp 0, .writeResp 0, .recv 1]

/-- Suffix of the `trun env1 sched1` trace after `readResp 1`. -/
def ordL2 : List TEv := [.writeResp 1]

/-- Prefix of the `trun env1 sched1` trace before the channel close. -/
def expU : List TEv :=
  [.readReq 0, .writeUpCall 0 fr0, .enq 0, .readReq 1, .writeUpCall 1 fr1,
   .enq 1]

/-- Suffix of the `trun env1 sched1` trace after the channel close. -/
def expL : List TEv :=
  [.recv 0, .readResp 0, .writeResp 0, .recv 1, .readResp 1, .writeResp 1]

/-- Prefix of the `trun env1 sched7` trace before the final info
record. -/
def expD : List TEv := expU ++ TEv.closeCh :: (expL ++ [TEv.chClosed])

/-- A client that keeps pipelining identical non-`Close` requests
forever; every external call succeeds. -/
def env3 : TunnelEnv where
  host := ""
  sid := 0
  reqs := fun _ => .ok "" false
  parseOk := fun _ => true
  writeUp := fun _ => none
  resps := fun _ => .ok false
  writeDown := fun _ => .ok

/-- A request whose rewritten URL fails to re-parse (`url.Parse` returns
nil), while `ReadRequest` and `WriteProxy` report no error. -/
def env10 : TunnelEnv where
  host := "h"
  sid := 7
  reqs := fun _ => .ok "/x" false
  parseOk := fun _ => false
  writeUp := fun _ => none
  resps := fun _ => .ok false
  writeDown := fun _ => .ok

/-- A CONNECT request to port 80 on an otherwise fully working
environment. -/
def ce2 : ConnEnv where
  method := "CONNECT"
  split := .ok ("h", "80")
  hijackSupported := true
  hijackErr := none
  dialErr := none
  certErr := none
  handshakeErr := none

/-- A fully successful CONNECT request to port 443. -/
def ce4 : ConnEnv where
  method := "CONNECT"
  split := .ok ("h", "443")
  hijackSupported := true
  hijackErr := none
  dialErr := none
  certErr := none
  handshakeErr := none

/-- A GET request arriving at `Connect`. -/
def ce8 : ConnEnv where
  method := "GET"
  split := .ok ("h", "443")
  hijackSupported := true
  hijackErr := none
  dialErr := none
  certErr := none
  handshakeErr := none

/-- A CONNECT request arriving at `Serve`. -/
def se8 : ServeEnv where
  method := "CONNECT"
  appSpot := "a"
  proxyBytes := ""
  writeProxyErr := none
  postErr := none
  postStatusCode := 200
  postStatus := "200 OK"
  readRespErr := none
  cresStatusCode := 200
  copyErr := none

/-- A fully successful plain GET relay through `Serve`. -/
def se9 : ServeEnv where
  method := "GET"
  appSpot := "a"
  proxyBytes := "GET http://x/ HTTP/1.1\r\n\r\n"
  writeProxyErr := none
  postErr := none
  postStatusCode := 200
  postStatus := "200 OK"
  readRespErr := none
  cresStatusCode := 404
  copyErr := none

/-! ## List and trace helper lemmas -/

theorem append_split {α : Type _} (t : List α) :
    ∀ (l1 : List α) {xs l2 : List α} {e : α},
      t ++ xs = l1 ++ e :: l2 →
      (∃ l2', t = l1 ++ e :: l2') ∨ ∃ l1', l1 = t ++ l1' ∧ xs = l1' ++ e :: l2 := by
  induction t with
  | nil =>
    intro l1 xs l2 e h
    exact .inr ⟨l1, (List.nil_append l1).symm, h⟩
  | cons a t ih =>
    intro l1 xs l2 e h
    cases l1 with
    | nil =>
      injection h with h1 h2
      exact .inl ⟨t, by simp [h1]⟩
    | cons b l1' =>
      injection h with h1 h2
      rcases ih l1' h2 with ⟨l2', ht⟩ | ⟨l1'', hl, hxs⟩
      · exact .inl ⟨l2', by simp [h1, ht]⟩
      · exact .inr ⟨l1'', by simp [h1, hl], hxs⟩

theorem before_ext {t xs : List TEv} {e f : TEv} (h1 : before t e f)
    (h2 : f ∈ xs → e ∈ t) : before (t ++ xs) e f := by
  intro l1 l2 hd
  rcases append_split t l1 hd with ⟨l2', ht⟩ | ⟨l1', rfl, hxs⟩
  · exact h1 l1 l2' ht
  · refine List.mem_append_left _ (h2 ?_)
    rw [hxs]
    exact List.mem_append_right _ (List.mem_cons_self _ _)

theorem dec_ext {P : List TEv → Prop} {t xs : List TEv} {ev : TEv}
    (hold : ∀ l1 l2, t = l1 ++ ev :: l2 → P l1)
    (hnew : ∀ l1 l2, xs = l1 ++ ev :: l2 → P (t ++ l1)) :
    ∀ l1 l2, t ++ xs = l1 ++ ev :: l2 → P l1 := by
  intro l1 l2 hd
  rcases append_split t l1 hd with ⟨l2', ht⟩ | ⟨l1', rfl, hxs⟩
  · exact hold l1 l2' ht
  · exact hnew l1' l2 hxs

theorem dec_ext_none {P : List TEv → Prop} {t xs : List TEv} {ev : TEv}
    (hold : ∀ l1 l2, t = l1 ++ ev :: l2 → P l1) (hm : ev ∉ xs) :
    ∀ l1 l2, t ++ xs = l1 ++ ev :: l2 → P l1 :=
  dec_ext hold (fun _ l2 hx => absurd
    (by rw [hx]; exact List.mem_append_right _ (List.mem_cons_self _ l2)) hm)

theorem concat_split {α : Type _} :
    ∀ (ys l1 : List α) {l2 : List α} {e : α}, e ∉ ys →
      ys ++ [e] = l1 ++ e :: l2 → l1 = ys ∧ l2 = [] := by
  intro ys
  induction ys with
  | nil =>
    intro l1 l2 e _ h
    cases l1 with
    | nil => simpa using h.symm
    | cons b l1' =>
      injection h with h1 h2
      cases l1' <;> simp at h2
  | cons y ys ih =>
    intro l1 l2 e he h
    cases l1 with
    | nil =>
      injection h with h1 h2
      exact absurd (h1 ▸ List.mem_cons_self y ys) he
    | cons b l1' =>
      injection h with h1 h2
      obtain ⟨rfl, rfl⟩ := ih l1' (fun hm => he (List.mem_cons_of_mem y hm)) h2
      simp [h1]

theorem head_split {α : Type _} {e : α} {ys l1 l2 : List α} (he : e ∉ ys)
    (h : e :: ys = l1 ++ e :: l2) : l1 = [] ∧ l2 = ys := by
  cases l1 with
  | nil => simpa using h.symm
  | cons b l1' =>
    injection h with h1 h2
    refine absurd ?_ he
    rw [h2]
    exact List.mem_append_right _ (List.mem_cons_self _ l2)

theorem mem_ext_iff {t xs : List TEv} {a : TEv} (hx : a ∉ xs) :
    a ∈ t ++ xs ↔ a ∈ t := by
  rw [List.mem_append]
  exact or_iff_left hx

/-! ## Reachability machinery -/

theorem trun_concat (env : TunnelEnv) (sched : List Choice) (c : Choice) :
    trun env (sched ++ [c]) = tstep env (trun env sched) c := by
  simp [trun, List.foldl_append]

theorem foldl_inv {P : TState → Prop} (env : TunnelEnv)
    (hstep : ∀ s c, P s → P (tstep env s c)) :
    ∀ (l : List Choice) (s : TState), P s → P (l.foldl (tstep env) s) := by
  intro l
  induction l with
  | nil => intro s hs; exact hs
  | cons c l ih => intro s hs; exact ih _ (hstep _ _ hs)

theorem inv_init (env : TunnelEnv) : Inv env tinit := by
  refine
    { qshape := rfl, qcount := rfl, qcap := by simp [tinit]
      lowDone := ?_, ord := ?_, upDone := ?_, upCause := ?_, downDone := ?_
      downCause := ?_, cntEnq := rfl, cntRecv := rfl, drained := ?_
      fwdChar := ?_ }
  · intro d hd j hj
    injection hd with h1
    omega
  · intro n
    constructor <;> intro l1 l2 hd <;> cases l1 <;> simp [tinit] at hd
  · constructor
    · rintro ⟨n, hn⟩
      simp [tinit] at hn
    · intro hm
      simp [tinit] at hm
  · intro l1 l2 hd
    cases l1 <;> simp [tinit] at hd
  · constructor
    · rintro ⟨d, hd⟩
      simp [tinit] at hd
    · intro hm
      simp [tinit] at hm
  · intro l1 l2 hd
    cases l1 <;> simp [tinit] at hd
  · intro l1 l2 hd
    cases l1 <;> simp [tinit] at hd
  · intro n fr hm
    simp [tinit] at hm

theorem range'_snoc (d k : Nat) :
    List.range' d k ++ [d + k] = List.range' d (k + 1) := by
  have := @List.range'_concat 1 d k
  simpa using this.symm

theorem inv_upStep (env : TunnelEnv) (s : TState) (h : Inv env s) :
    Inv env (upStep env s) := by
  rcases hu : s.up with n | n | n
  case read =>
    rcases hr : env.reqs n with ⟨u, c⟩ | _ | m
    case eof =>
      have hs' : upStep env s =
          { s with up := .done n
                   trace := s.trace ++ [.readReqEOF, .closeCh] } := by
        simp [upStep, hu, hr]
      rw [hs']
      refine
        { qshape := h.qshape, qcount := by have hq2 := h.qcount; rw [hu] at hq2; exact hq2, qcap := h.qcap
          lowDone := ?_, ord := ?_, upDone := ?_, upCause := ?_, downDone := ?_
          downCause := ?_, cntEnq := ?_, cntRecv := ?_, drained := ?_
          fwdChar := ?_ }
      · intro d hd j hj
        exact List.mem_append_left _ (h.lowDone d hd j hj)
      · intro k
        constructor
        · exact before_ext (h.ord k).1 (by intro hf; simp at hf)
        · exact before_ext (h.ord k).2 (by intro hf; simp at hf)
      · constructor
        · intro _
          exact List.mem_append_right _ (by simp)
        · intro _
          exact ⟨n, rfl⟩
      · refine dec_ext h.upCause ?_
        intro l1 l2 hx
        obtain ⟨rfl, rfl⟩ := concat_split [TEv.readReqEOF] l1 (by simp) hx
        exact .inl ⟨s.trace, rfl⟩
      · rw [mem_ext_iff (by simp)]
        exact h.downDone
      · exact dec_ext_none h.downCause (by simp)
      · have hq := h.cntEnq
        rw [hu] at hq
        rw [List.countP_append]
        simpa [isEnq] using hq
      · rw [List.countP_append]
        simpa [isRecv] using h.cntRecv
      · exact dec_ext_none h.drained (by simp)
      · intro k fr hm
        rcases List.mem_append.mp hm with hm | hm
        · exact h.fwdChar k fr hm
        · simp at hm
    case err =>
      have hs' : upStep env s =
          { s with up := .done n
                   trace := s.trace ++
                     [.errLog ("ReadRequest: " ++ m), .closeCh] } := by
        simp [upStep, hu, hr]
      rw [hs']
      refine
        { qshape := h.qshape, qcount := by have hq2 := h.qcount; rw [hu] at hq2; exact hq2, qcap := h.qcap
          lowDone := ?_, ord := ?_, upDone := ?_, upCause := ?_, downDone := ?_
          downCause := ?_, cntEnq := ?_, cntRecv := ?_, drained := ?_
          fwdChar := ?_ }
      · intro d hd j hj
        exact List.mem_append_left _ (h.lowDone d hd j hj)
      · intro k
        constructor
        · exact before_ext (h.ord k).1 (by intro hf; simp at hf)
        · exact before_ext (h.ord k).2 (by intro hf; simp at hf)
      · constructor
        · intro _
          exact List.mem_append_right _ (by simp)
        · intro _
          exact ⟨n, rfl⟩
      · refine dec_ext h.upCause ?_
        intro l1 l2 hx
        obtain ⟨rfl, rfl⟩ :=
          concat_split [TEv.errLog ("ReadRequest: " ++ m)] l1 (by simp) hx
        exact .inr (.inl ⟨s.trace, m, rfl⟩)
      · rw [mem_ext_iff (by simp)]
        exact h.downDone
      · exact dec_ext_none h.downCause (by simp)
      · have hq := h.cntEnq
        rw [hu] at hq
        rw [List.countP_append]
        simpa [isEnq] using hq
      · rw [List.countP_append]
        simpa [isRecv] using h.cntRecv
      · exact dec_ext_none h.drained (by simp)
      · intro k fr hm
        rcases List.mem_append.mp hm with hm | hm
        · exact h.fwdChar k fr hm
        · simp at hm
    case ok =>
      rcases hw : env.writeUp n with _ | m
      case none =>
        have hs' : upStep env s =
            { s with up := .send n
                     trace := s.trace ++
                       [.readReq n, .writeUpCall n (mkFwd env n u)] } := by
          simp [upStep, hu, hr, hw]
        rw [hs']
        refine
          { qshape := h.qshape
            qcount := by have hq := h.qcount; rw [hu] at hq; exact hq
            qcap := h.qcap
            lowDone := ?_, ord := ?_, upDone := ?_, upCause := ?_
            downDone := ?_, downCause := ?_, cntEnq := ?_, cntRecv := ?_
            drained := ?_, fwdChar := ?_ }
        · intro d hd j hj
          exact List.mem_append_left _ (h.lowDone d hd j hj)
        · intro k
          constructor
          · exact before_ext (h.ord k).1 (by intro hf; simp at hf)
          · exact before_ext (h.ord k).2 (by intro hf; simp at hf)
        · constructor
          · rintro ⟨k, hk⟩
            simp at hk
          · intro hm
            rw [mem_ext_iff (by simp)] at hm
            obtain ⟨k, hk⟩ := h.upDone.mpr hm
            rw [hu] at hk
            simp at hk
        · exact dec_ext_none h.upCause (by simp)
        · rw [mem_ext_iff (by simp)]
          exact h.downDone
        · exact dec_ext_none h.downCause (by simp)
        · have hq := h.cntEnq
          rw [hu] at hq
          rw [List.countP_append]
          simpa [isEnq] using hq
        · rw [List.countP_append]
          simpa [isRecv] using h.cntRecv
        · exact dec_ext_none h.drained (by simp)
        · intro k fr hm
          rcases List.mem_append.mp hm with hm | hm
          · exact h.fwdChar k fr hm
          · simp at hm
            obtain ⟨rfl, rfl⟩ := hm
            simp [reqUrl, hr]
      case some =>
        have hs' : upStep env s =
            { s with up := .done n
                     trace := s.trace ++
                       [.readReq n, .writeUpCall n (mkFwd env n u),
                        .errLog ("WriteProxy: " ++ m), .closeCh] } := by
          simp [upStep, hu, hr, hw]
        rw [hs']
        refine
          { qshape := h.qshape
            qcount := by have hq := h.qcount; rw [hu] at hq; exact hq
            qcap := h.qcap
            lowDone := ?_, ord := ?_, upDone := ?_, upCause := ?_
            downDone := ?_, downCause := ?_, cntEnq := ?_, cntRecv := ?_
            drained := ?_, fwdChar := ?_ }
        · intro d hd j hj
          exact List.mem_append_left _ (h.lowDone d hd j hj)
        · intro k
          constructor
          · exact before_ext (h.ord k).1 (by intro hf; simp at hf)
          · exact before_ext (h.ord k).2 (by intro hf; simp at hf)
        · constructor
          · intro _
            exact List.mem_append_right _ (by simp)
          · intro _
            exact ⟨n, rfl⟩
        · refine dec_ext h.upCause ?_
          intro l1 l2 hx
          obtain ⟨rfl, rfl⟩ :=
            concat_split [TEv.readReq n, TEv.writeUpCall n (mkFwd env n u),
              TEv.errLog ("WriteProxy: " ++ m)] l1 (by simp) hx
          exact .inr (.inr (.inl ⟨s.trace, n, mkFwd env n u, m, rfl⟩))
        · rw [mem_ext_iff (by simp)]
          exact h.downDone
        · exact dec_ext_none h.downCause (by simp)
        · have hq := h.cntEnq
          rw [hu] at hq
          rw [List.countP_append]
          simpa [isEnq] using hq
        · rw [List.countP_append]
          simpa [isRecv] using h.cntRecv
        · exact dec_ext_none h.drained (by simp)
        · intro k fr hm
          rcases List.mem_append.mp hm with hm | hm
          · exact h.fwdChar k fr hm
          · simp at hm
            obtain ⟨rfl, rfl⟩ := hm
            simp [reqUrl, hr]
  case send =>
    by_cases hlen : s.queue.length < 8
    case neg =>
      have hs' : upStep env s = s := by
        simp [upStep, hu, hlen]
      rw [hs']
      exact h
    case pos =>
      have hcnt : deqCount s.down + s.queue.length = n := by
        have := h.qcount
        rw [hu] at this
        simpa [enqCount] using this
      rcases hc : reqClose env n with _ | _
      case false =>
        have hs' : upStep env s =
            { s with up := .read (n + 1), queue := s.queue ++ [n]
                     trace := s.trace ++ [.enq n] } := by
          simp [upStep, hu, hlen, hc]
        rw [hs']
        refine
          { qshape := ?_, qcount := ?_, qcap := ?_
            lowDone := ?_, ord := ?_, upDone := ?_, upCause := ?_
            downDone := ?_, downCause := ?_, cntEnq := ?_, cntRecv := ?_
            drained := ?_, fwdChar := ?_ }
        · show s.queue ++ [n] =
            List.range' (deqCount s.down) (s.queue ++ [n]).length
          rw [List.length_append]
          show s.queue ++ [n] =
            List.range' (deqCount s.down) (s.queue.length + 1)
          rw [← range'_snoc, hcnt, ← h.qshape]
        · show deqCount s.down + (s.queue ++ [n]).length = n + 1
          rw [List.length_append]
          simp only [List.length_cons, List.length_nil]
          omega
        · show (s.queue ++ [n]).length ≤ 8
          rw [List.length_append]
          simp only [List.length_cons, List.length_nil]
          omega
        · intro d hd j hj
          exact List.mem_append_left _ (h.lowDone d hd j hj)
        · intro k
          constructor
          · exact before_ext (h.ord k).1 (by intro hf; simp at hf)
          · exact before_ext (h.ord k).2 (by intro hf; simp at hf)
        · constructor
          · rintro ⟨k, hk⟩
            simp at hk
          · intro hm
            rw [mem_ext_iff (by simp)] at hm
            obtain ⟨k, hk⟩ := h.upDone.mpr hm
            rw [hu] at hk
            simp at hk
        · exact dec_ext_none h.upCause (by simp)
        · rw [mem_ext_iff (by simp)]
          exact h.downDone
        · exact dec_ext_none h.downCause (by simp)
        · rw [List.countP_append]
          have := h.cntEnq
          rw [hu] at this
          simp only [enqCount] at this
          simp [isEnq, this, enqCount]
        · rw [List.countP_append]
          simpa [isRecv] using h.cntRecv
        · exact dec_ext_none h.drained (by simp)
        · intro k fr hm
          rcases List.mem_append.mp hm with hm | hm
          · exact h.fwdChar k fr hm
          · simp at hm
      case true =>
        have hs' : upStep env s =
            { s with up := .done (n + 1), queue := s.queue ++ [n]
                     trace := s.trace ++ [.enq n, .closeCh] } := by
          simp [upStep, hu, hlen, hc]
        rw [hs']
        refine
          { qshape := ?_, qcount := ?_, qcap := ?_
            lowDone := ?_, ord := ?_, upDone := ?_, upCause := ?_
            downDone := ?_, downCause := ?_, cntEnq := ?_, cntRecv := ?_
            drained := ?_, fwdChar := ?_ }
        · show s.queue ++ [n] =
            List.range' (deqCount s.down) (s.queue ++ [n]).length
          rw [List.length_append]
          show s.queue ++ [n] =
            List.range' (deqCount s.down) (s.queue.length + 1)
          rw [← range'_snoc, hcnt, ← h.qshape]
        · show deqCount s.down + (s.queue ++ [n]).length = n + 1
          rw [List.length_append]
          simp only [List.length_cons, List.length_nil]
          omega
        · show (s.queue ++ [n]).length ≤ 8
          rw [List.length_append]
          simp only [List.length_cons, List.length_nil]
          omega
        · intro d hd j hj
          exact List.mem_append_left _ (h.lowDone d hd j hj)
        · intro k
          constructor
          · exact before_ext (h.ord k).1 (by intro hf; simp at hf)
          · exact before_ext (h.ord k).2 (by intro hf; simp at hf)
        · constructor
          · intro _
            exact List.mem_append_right _ (by simp)
          · intro _
            exact ⟨n + 1, rfl⟩
        · refine dec_ext h.upCause ?_
          intro l1 l2 hx
          obtain ⟨rfl, rfl⟩ := concat_split [TEv.enq n] l1 (by simp) hx
          exact .inr (.inr (.inr ⟨s.trace, n, rfl, hc⟩))
        · rw [mem_ext_iff (by simp)]
          exact h.downDone
        · exact dec_ext_none h.downCause (by simp)
        · rw [List.countP_append]
          have := h.cntEnq
          rw [hu] at this
          simp only [enqCount] at this
          simp [isEnq, this, enqCount]
        · rw [List.countP_append]
          simpa [isRecv] using h.cntRecv
        · exact dec_ext_none h.drained (by simp)
        · intro k fr hm
          rcases List.mem_append.mp hm with hm | hm
          · exact h.fwdChar k fr hm
          · simp at hm
  case done =>
    have hs' : upStep env s = s := by
      simp [upStep, hu]
    rw [hs']
    exact h

theorem inv_downStep (env : TunnelEnv) (s : TState) (h : Inv env s) :
    Inv env (downStep env s) := by
  rcases hd : s.down with d | d
  case done =>
    have hs' : downStep env s = s := by
      simp [downStep, hd]
    rw [hs']
    exact h
  case recv =>
    rcases hq : s.queue with _ | ⟨m, rest⟩
    case nil =>
      rcases hu : s.up with k | k | k
      case read =>
        have hs' : downStep env s = s := by
          simp [downStep, hd, hq, hu]
        rw [hs']
        exact h
      case send =>
        have hs' : downStep env s = s := by
          simp [downStep, hd, hq, hu]
        rw [hs']
        exact h
      case done =>
        have hs' : downStep env s =
            { s with down := .done d
                     trace := s.trace ++ [.chClosed, .infoClose] } := by
          simp [downStep, hd, hq, hu]
        rw [hs']
        refine
          { qshape := ?_, qcount := ?_, qcap := h.qcap
            lowDone := ?_, ord := ?_, upDone := ?_, upCause := ?_
            downDone := ?_, downCause := ?_, cntEnq := ?_, cntRecv := ?_
            drained := ?_, fwdChar := ?_ }
        · show s.queue = List.range' d s.queue.length
          rw [hq]
          rfl
        · show d + s.queue.length = enqCount s.up
          have hc0 := h.qcount
          rw [hd] at hc0
          exact hc0
        · intro d' hd' j hj
          simp at hd'
        · intro n
          constructor
          · exact before_ext (h.ord n).1 (by intro hf; simp at hf)
          · exact before_ext (h.ord n).2 (by intro hf; simp at hf)
        · rw [mem_ext_iff (by simp)]
          exact h.upDone
        · exact dec_ext_none h.upCause (by simp)
        · constructor
          · intro _
            exact List.mem_append_right _ (by simp)
          · intro _
            exact ⟨d, rfl⟩
        · refine dec_ext h.downCause ?_
          intro l1 l2 hx
          obtain ⟨rfl, rfl⟩ := concat_split [TEv.chClosed] l1 (by simp) hx
          exact .inl ⟨s.trace, rfl⟩
        · rw [List.countP_append]
          simpa [isEnq] using h.cntEnq
        · have hc := h.cntRecv
          rw [hd] at hc
          rw [List.countP_append]
          simpa [isRecv, deqCount] using hc
        · refine dec_ext h.drained ?_
          intro l1 l2 hx
          obtain ⟨rfl, rfl⟩ := head_split (by simp) hx
          rw [List.append_nil]
          constructor
          · exact h.upDone.mp ⟨k, hu⟩
          · have he := h.cntEnq
            have hr2 := h.cntRecv
            have hc0 := h.qcount
            rw [hu] at he
            rw [hd] at hr2
            rw [hd, hq, hu] at hc0
            simp only [enqCount, deqCount, List.length_nil] at he hr2 hc0
            omega
        · intro n fr hm
          rcases List.mem_append.mp hm with hm | hm
          · exact h.fwdChar n fr hm
          · simp at hm
    case cons =>
      have hqs := h.qshape
      rw [hd, hq] at hqs
      simp only [deqCount, List.length_cons, List.range'_succ] at hqs
      injection hqs with hm1 hm2
      have hcnt : d + (rest.length + 1) = enqCount s.up := by
        have hc0 := h.qcount
        rw [hd, hq] at hc0
        simpa [deqCount] using hc0
      have hcap : rest.length + 1 ≤ 8 := by
        have hc0 := h.qcap
        rw [hq] at hc0
        simpa using hc0
      have hrecv : List.countP isRecv s.trace = d := by
        have hc := h.cntRecv
        rw [hd] at hc
        exact hc
      rcases hre : env.resps m with rc | msg
      case err =>
        have hs' : downStep env s =
            { s with down := .done (d + 1), queue := rest
                     trace := s.trace ++ [.recv m,
                       .errLog ("ReadResponse: " ++ msg), .infoClose] } := by
          simp [downStep, hd, hq, hre]
        rw [hs']
        refine
          { qshape := ?_, qcount := ?_, qcap := ?_
            lowDone := ?_, ord := ?_, upDone := ?_, upCause := ?_
            downDone := ?_, downCause := ?_, cntEnq := ?_, cntRecv := ?_
            drained := ?_, fwdChar := ?_ }
        · show rest = List.range' (d + 1) rest.length
          exact hm2
        · show (d + 1) + rest.length = enqCount s.up
          omega
        · show rest.length ≤ 8
          omega
        · intro d' hd' j hj
          simp at hd'
        · intro n
          constructor
          · exact before_ext (h.ord n).1 (by intro hf; simp at hf)
          · exact before_ext (h.ord n).2 (by intro hf; simp at hf)
        · rw [mem_ext_iff (by simp)]
          exact h.upDone
        · exact dec_ext_none h.upCause (by simp)
        · constructor
          · intro _
            exact List.mem_append_right _ (by simp)
          · intro _
            exact ⟨d + 1, rfl⟩
        · refine dec_ext h.downCause ?_
          intro l1 l2 hx
          obtain ⟨rfl, rfl⟩ := concat_split
            [TEv.recv m, TEv.errLog ("ReadResponse: " ++ msg)] l1 (by simp) hx
          exact .inr (.inl ⟨s.trace, m, msg, rfl⟩)
        · rw [List.countP_append]
          simpa [isEnq] using h.cntEnq
        · rw [List.countP_append]
          simp [isRecv, hrecv, deqCount]
        · exact dec_ext_none h.drained (by simp)
        · intro n fr hm
          rcases List.mem_append.mp hm with hm | hm
          · exact h.fwdChar n fr hm
          · simp at hm
      case ok =>
        rcases hwr : env.writeDown m with _ | _ | msg
        case eof =>
          have hs' : downStep env s =
              { s with down := .done (d + 1), queue := rest
                       trace := s.trace ++ [.recv m, .readResp m,
                         .writeRespEOF, .infoClose] } := by
            simp [downStep, hd, hq, hre, hwr]
          rw [hs']
          refine
            { qshape := ?_, qcount := ?_, qcap := ?_
              lowDone := ?_, ord := ?_, upDone := ?_, upCause := ?_
              downDone := ?_, downCause := ?_, cntEnq := ?_, cntRecv := ?_
              drained := ?_, fwdChar := ?_ }
          · show rest = List.range' (d + 1) rest.length
            exact hm2
          · show (d + 1) + rest.length = enqCount s.up
            omega
          · show rest.length ≤ 8
            omega
          · intro d' hd' j hj
            simp at hd'
          · intro n
            constructor
            · refine before_ext (h.ord n).1 ?_
              intro hf
              simp at hf
              exact h.lowDone d hd n (by omega)
            · exact before_ext (h.ord n).2 (by intro hf; simp at hf)
          · rw [mem_ext_iff (by simp)]
            exact h.upDone
          · exact dec_ext_none h.upCause (by simp)
          · constructor
            · intro _
              exact List.mem_append_right _ (by simp)
            · intro _
              exact ⟨d + 1, rfl⟩
          · refine dec_ext h.downCause ?_
            intro l1 l2 hx
            obtain ⟨rfl, rfl⟩ := concat_split
              [TEv.recv m, TEv.readResp m, TEv.writeRespEOF] l1 (by simp) hx
            exact .inr (.inr (.inl ⟨s.trace, m, rfl⟩))
          · rw [List.countP_append]
            simpa [isEnq] using h.cntEnq
          · rw [List.countP_append]
            simp [isRecv, hrecv, deqCount]
          · exact dec_ext_none h.drained (by simp)
          · intro n fr hm
            rcases List.mem_append.mp hm with hm | hm
            · exact h.fwdChar n fr hm
            · simp at hm
        case err =>
          have hs' : downStep env s =
              { s with down := .done (d + 1), queue := rest
                       trace := s.trace ++ [.recv m, .readResp m,
                         .errLog ("Write: " ++ msg), .infoClose] } := by
            simp [downStep, hd, hq, hre, hwr]
          rw [hs']
          refine
            { qshape := ?_, qcount := ?_, qcap := ?_
              lowDone := ?_, ord := ?_, upDone := ?_, upCause := ?_
              downDone := ?_, downCause := ?_, cntEnq := ?_, cntRecv := ?_
              drained := ?_, fwdChar := ?_ }
          · show rest = List.range' (d + 1) rest.length
            exact hm2
          · show (d + 1) + rest.length = enqCount s.up
            omega
          · show rest.length ≤ 8
            omega
          · intro d' hd' j hj
            simp at hd'
          · intro n
            constructor
            · refine before_ext (h.ord n).1 ?_
              intro hf
              simp at hf
              exact h.lowDone d hd n (by omega)
            · exact before_ext (h.ord n).2 (by intro hf; simp at hf)
          · rw [mem_ext_iff (by simp)]
            exact h.upDone
          · exact dec_ext_none h.upCause (by simp)
          · constructor
            · intro _
              exact List.mem_append_right _ (by simp)
            · intro _
              exact ⟨d + 1, rfl⟩
          · refine dec_ext h.downCause ?_
            intro l1 l2 hx
            obtain ⟨rfl, rfl⟩ := concat_split
              [TEv.recv m, TEv.readResp m, TEv.errLog ("Write: " ++ msg)]
              l1 (by simp) hx
            exact .inr (.inr (.inr (.inl ⟨s.trace, m, msg, rfl⟩)))
          · rw [List.countP_append]
            simpa [isEnq] using h.cntEnq
          · rw [List.countP_append]
            simp [isRecv, hrecv, deqCount]
          · exact dec_ext_none h.drained (by simp)
          · intro n fr hm
            rcases List.mem_append.mp hm with hm | hm
            · exact h.fwdChar n fr hm
            · simp at hm
        case ok =>
          rcases hrc : rc with _ | _
          case true =>
            have hs' : downStep env s =
                { s with down := .done (d + 1), queue := rest
                         trace := s.trace ++ [.recv m, .readResp m,
                           .writeResp m, .infoClose] } := by
              simp [downStep, hd, hq, hre, hwr, hrc]
            rw [hs']
            refine
              { qshape := ?_, qcount := ?_, qcap := ?_
                lowDone := ?_, ord := ?_, upDone := ?_, upCause := ?_
                downDone := ?_, downCause := ?_, cntEnq := ?_, cntRecv := ?_
                drained := ?_, fwdChar := ?_ }
            · show rest = List.range' (d + 1) rest.length
              exact hm2
            · show (d + 1) + rest.length = enqCount s.up
              omega
            · show rest.length ≤ 8
              omega
            · intro d' hd' j hj
              simp at hd'
            · intro n
              constructor
              · refine before_ext (h.ord n).1 ?_
                intro hf
                simp at hf
                exact h.lowDone d hd n (by omega)
              · refine before_ext (h.ord n).2 ?_
                intro hf
                simp at hf
                exact h.lowDone d hd n (by omega)
            · rw [mem_ext_iff (by simp)]
              exact h.upDone
            · exact dec_ext_none h.upCause (by simp)
            · constructor
              · intro _
                exact List.mem_append_right _ (by simp)
              · intro _
                exact ⟨d + 1, rfl⟩
            · refine dec_ext h.downCause ?_
              intro l1 l2 hx
              obtain ⟨rfl, rfl⟩ := concat_split
                [TEv.recv m, TEv.readResp m, TEv.writeResp m] l1 (by simp) hx
              refine .inr (.inr (.inr (.inr ⟨s.trace, m, rfl, ?_⟩)))
              simp [respClose, hre, hrc]
            · rw [List.countP_append]
              simpa [isEnq] using h.cntEnq
            · rw [List.countP_append]
              simp [isRecv, hrecv, deqCount]
            · exact dec_ext_none h.drained (by simp)
            · intro n fr hm
              rcases List.mem_append.mp hm with hm | hm
              · exact h.fwdChar n fr hm
              · simp at hm
          case false =>
            have hs' : downStep env s =
                { s with down := .recv (d + 1), queue := rest
                         trace := s.trace ++ [.recv m, .readResp m,
                           .writeResp m] } := by
              simp [downStep, hd, hq, hre, hwr, hrc]
            rw [hs']
            refine
              { qshape := ?_, qcount := ?_, qcap := ?_
                lowDone := ?_, ord := ?_, upDone := ?_, upCause := ?_
                downDone := ?_, downCause := ?_, cntEnq := ?_, cntRecv := ?_
                drained := ?_, fwdChar := ?_ }
            · show rest = List.range' (d + 1) rest.length
              exact hm2
            · show (d + 1) + rest.length = enqCount s.up
              omega
            · show rest.length ≤ 8
              omega
            · intro d' hd' j hj
              injection hd' with hdd
              rcases Nat.lt_or_ge j d with hlt | hge
              · exact List.mem_append_left _ (h.lowDone d hd j hlt)
              · have hjd : j = d := by omega
                subst hjd
                refine List.mem_append_right _ ?_
                simp [hm1]
            · intro n
              constructor
              · refine before_ext (h.ord n).1 ?_
                intro hf
                simp at hf
                exact h.lowDone d hd n (by omega)
              · refine before_ext (h.ord n).2 ?_
                intro hf
                simp at hf
                exact h.lowDone d hd n (by omega)
            · rw [mem_ext_iff (by simp)]
              exact h.upDone
            · exact dec_ext_none h.upCause (by simp)
            · constructor
              · rintro ⟨k, hk⟩
                simp at hk
              · intro hmm
                rw [mem_ext_iff (by simp)] at hmm
                obtain ⟨k, hk⟩ := h.downDone.mpr hmm
                rw [hd] at hk
                simp at hk
            · exact dec_ext_none h.downCause (by simp)
            · rw [List.countP_append]
              simpa [isEnq] using h.cntEnq
            · rw [List.countP_append]
              simp [isRecv, hrecv, deqCount]
            · exact dec_ext_none h.drained (by simp)
            · intro n fr hm
              rcases List.mem_append.mp hm with hm | hm
              · exact h.fwdChar n fr hm
              · simp at hm

theorem inv_trun (env : TunnelEnv) (sched : List Choice) :
    Inv env (trun env sched) := by
  refine foldl_inv env ?_ sched tinit (inv_init env)
  intro s c hs
  cases c
  · exact inv_upStep env s hs
  · exact inv_downStep env s hs

/-! ## Claim theorems -/

/-- C2: for every CONNECT request whose target port is not "443",
`EngineGAE.Connect` reports an error and returns before hijacking the
client connection and before dialing any backend connection; the hijack
and dial are attempted only when the port equals "443". -/
theorem connect_port_guard (e : ConnEnv) (h p : String)
    (hm : e.method = "CONNECT") (hs : e.split = .ok (h, p))
    (hp : p ≠ "443") :
    connectPrologue e = [CEv.errLog ("unsupported CONNECT port: " ++ p)] ∧
    CEv.hijack ∉ connectPrologue e ∧ CEv.dial ∉ connectPrologue e ∧
    ∀ e' : ConnEnv,
      (CEv.hijack ∈ connectPrologue e' ∨ CEv.dial ∈ connectPrologue e') →
      ∃ h', e'.split = Except.ok (h', "443") := by
  have he : connectPrologue e =
      [CEv.errLog ("unsupported CONNECT port: " ++ p)] := by
    simp [connectPrologue, hm, hs, hp]
  refine ⟨he, by rw [he]; simp, by rw [he]; simp, ?_⟩
  intro e' hmem
  by_cases hm' : e'.method = "CONNECT"
  · rcases hsp : e'.split with m | ⟨h', p'⟩
    · simp [connectPrologue, hm', hsp] at hmem
    · by_cases hp' : p' = "443"
      · subst hp'
        exact ⟨h', rfl⟩
      · simp [connectPrologue, hm', hsp, hp'] at hmem
  · simp [connectPrologue, hm'] at hmem

/-- C2 witness: the port-80 environment `ce2` is rejected with the port
error and nothing else. -/
theorem connect_port_guard_instance :
    connectPrologue ce2 =
      [CEv.errLog ("unsupported CONNECT port: " ++ "80")] :=
  (connect_port_guard ce2 "h" "80" rfl rfl (by decide)).1

/-- C4: on every CONNECT whose port check, hijack and backend dial all
succeed, `Connect` writes the literal bytes `HTTP/1.1 200 OK\r\n\r\n`
(and no other bytes) to the hijacked client connection, after the dial
and before the certificate-pool lookup and the TLS handshake. -/
theorem connect_ack_200 (e : ConnEnv) (h : String)
    (hm : e.method = "CONNECT") (hs : e.split = .ok (h, "443"))
    (hhs : e.hijackSupported = true) (hhe : e.hijackErr = none)
    (hde : e.dialErr = none) :
    ∃ rest, connectPrologue e =
        [CEv.hijack, CEv.dial, CEv.writeClient ok200, CEv.certGet h] ++
          rest ∧
      ∀ b, CEv.writeClient b ∉ rest := by
  rcases hce : e.certErr with _ | m
  · rcases hhe2 : e.handshakeErr with _ | m2
    · refine ⟨[CEv.handshake, CEv.enterRelay], ?_, by intro b; simp⟩
      simp [connectPrologue, hm, hs, hhs, hhe, hde, hce, hhe2]
    · refine ⟨[CEv.handshake, CEv.errLog ("Handshake: " ++ m2)], ?_,
        by intro b; simp⟩
      simp [connectPrologue, hm, hs, hhs, hhe, hde, hce, hhe2]
  · refine ⟨[CEv.errLog ("CertPool.Get: " ++ m)], ?_, by intro b; simp⟩
    simp [connectPrologue, hm, hs, hhs, hhe, hde, hce]

/-- C4 witness: the fully successful CONNECT environment `ce4`. -/
theorem connect_ack_200_instance :
    ∃ rest, connectPrologue ce4 =
        [CEv.hijack, CEv.dial, CEv.writeClient ok200, CEv.certGet "h"] ++
          rest ∧
      ∀ b, CEv.writeClient b ∉ rest :=
  connect_ack_200 ce4 "h" rfl rfl rfl rfl rfl

/-- C8: `EngineGAE.Serve` rejects CONNECT requests with a descriptive
error and performs no other work (in particular never posts to the
upstream), and `EngineGAE.Connect` rejects non-CONNECT requests with a
descriptive error without hijacking or dialing. -/
theorem method_guards (e : ServeEnv) (ce : ConnEnv) :
    (e.method = "CONNECT" →
      serve e = [SEv.errLog "this function can not handle CONNECT method"] ∧
      ∀ u b, SEv.post u b ∉ serve e) ∧
    (ce.method ≠ "CONNECT" →
      connectPrologue ce =
        [CEv.errLog "this function can only handle CONNECT method"] ∧
      CEv.hijack ∉ connectPrologue ce ∧ CEv.dial ∉ connectPrologue ce) := by
  constructor
  · intro hm
    have he : serve e =
        [SEv.errLog "this function can not handle CONNECT method"] := by
      simp [serve, hm]
    exact ⟨he, by intro u b; rw [he]; simp⟩
  · intro hm
    have he : connectPrologue ce =
        [CEv.errLog "this function can only handle CONNECT method"] := by
      simp [connectPrologue, hm]
    exact ⟨he, by rw [he]; simp, by rw [he]; simp⟩

/-- C8 witness: a CONNECT request at `Serve` and a GET request at
`Connect` are both rejected with their descriptive errors. -/
theorem method_guards_instance :
    serve se8 = [SEv.errLog "this function can not handle CONNECT method"] ∧
    connectPrologue ce8 =
      [CEv.errLog "this function can only handle CONNECT method"] :=
  ⟨((method_guards se8 ce8).1 rfl).1, ((method_guards se8 ce8).2 (by decide)).1⟩

/-- C9: for every non-CONNECT request `Serve` relays successfully, the
client request is serialized in proxy wire form, posted as the body of a
POST to the configured GAE endpoint, the embedded response read back,
its headers and status copied before the body is streamed; any failure
is reported as the final action and aborts the response (no completion
record). -/
theorem serve_relay (e : ServeEnv) :
    (e.method ≠ "CONNECT" → e.writeProxyErr = none → e.postErr = none →
      e.postStatusCode ≠ 500 → e.readRespErr = none → e.copyErr = none →
      serve e = [SEv.writeProxyBuf e.proxyBytes,
        SEv.post (gaeURL e) e.proxyBytes, SEv.readRespOk, SEv.copyHeader,
        SEv.writeHeader e.cresStatusCode, SEv.copyBody,
        SEv.infoLog e.postStatus]) ∧
    ∀ m, SEv.errLog m ∈ serve e →
      (∃ l, serve e = l ++ [SEv.errLog m]) ∧
      ∀ st, SEv.infoLog st ∉ serve e := by
  constructor
  · intro h1 h2 h3 h4 h5 h6
    simp [serve, h1, h2, h3, h4, h5, h6]
  · intro m hm
    by_cases h1 : e.method = "CONNECT"
    · have he : serve e =
          [SEv.errLog "this function can not handle CONNECT method"] := by
        simp [serve, h1]
      rw [he] at hm ⊢
      simp at hm
      subst hm
      exact ⟨⟨[], rfl⟩, by intro st; simp⟩
    · rcases h2 : e.writeProxyErr with _ | m2
      · rcases h3 : e.postErr with _ | m3
        · by_cases h4 : e.postStatusCode = 500
          · have he : serve e = [SEv.writeProxyBuf e.proxyBytes,
                SEv.post (gaeURL e) e.proxyBytes,
                SEv.errLog (e.method ++ " " ++ e.postStatus)] := by
              simp [serve, h1, h2, h3, h4]
            rw [he] at hm ⊢
            simp at hm
            subst hm
            refine ⟨⟨[SEv.writeProxyBuf e.proxyBytes,
              SEv.post (gaeURL e) e.proxyBytes], rfl⟩, by intro st; simp⟩
          · rcases h5 : e.readRespErr with _ | m5
            · rcases h6 : e.copyErr with _ | m6
              · have he : serve e = [SEv.writeProxyBuf e.proxyBytes,
                    SEv.post (gaeURL e) e.proxyBytes, SEv.readRespOk,
                    SEv.copyHeader, SEv.writeHeader e.cresStatusCode,
                    SEv.copyBody, SEv.infoLog e.postStatus] := by
                  simp [serve, h1, h2, h3, h4, h5, h6]
                rw [he] at hm
                simp at hm
              · have he : serve e = [SEv.writeProxyBuf e.proxyBytes,
                    SEv.post (gaeURL e) e.proxyBytes, SEv.readRespOk,
                    SEv.copyHeader, SEv.writeHeader e.cresStatusCode,
                    SEv.copyBody, SEv.errLog ("Copy: " ++ m6)] := by
                  simp [serve, h1, h2, h3, h4, h5, h6]
                rw [he] at hm ⊢
                simp at hm
                subst hm
                refine ⟨⟨[SEv.writeProxyBuf e.proxyBytes,
                  SEv.post (gaeURL e) e.proxyBytes, SEv.readRespOk,
                  SEv.copyHeader, SEv.writeHeader e.cresStatusCode,
                  SEv.copyBody], rfl⟩, by intro st; simp⟩
            · have he : serve e = [SEv.writeProxyBuf e.proxyBytes,
                  SEv.post (gaeURL e) e.proxyBytes,
                  SEv.errLog ("ReadResponse: " ++ m5)] := by
                simp [serve, h1, h2, h3, h4, h5]
              rw [he] at hm ⊢
              simp at hm
              subst hm
              refine ⟨⟨[SEv.writeProxyBuf e.proxyBytes,
                SEv.post (gaeURL e) e.proxyBytes], rfl⟩, by intro st; simp⟩
        · have he : serve e = [SEv.writeProxyBuf e.proxyBytes,
              SEv.post (gaeURL e) e.proxyBytes,
              SEv.errLog ("Post: " ++ m3)] := by
            simp [serve, h1, h2, h3]
          rw [he] at hm ⊢
          simp at hm
          subst hm
          refine ⟨⟨[SEv.writeProxyBuf e.proxyBytes,
            SEv.post (gaeURL e) e.proxyBytes], rfl⟩, by intro st; simp⟩
      · have he : serve e = [SEv.errLog ("WriteProxy: " ++ m2)] := by
          simp [serve, h1, h2]
        rw [he] at hm ⊢
        simp at hm
        subst hm
        exact ⟨⟨[], rfl⟩, by intro st; simp⟩

/-- C9 witness: the fully successful plain relay `se9`. -/
theorem serve_relay_instance :
    serve se9 = [SEv.writeProxyBuf se9.proxyBytes,
      SEv.post (gaeURL se9) se9.proxyBytes, SEv.readRespOk, SEv.copyHeader,
      SEv.writeHeader se9.cresStatusCode, SEv.copyBody,
      SEv.infoLog se9.postStatus] :=
  (serve_relay se9).1 (by decide) rfl rfl (by decide) rfl rfl

/-- C1: within one CONNECT tunnel, responses are written back to the
client in exactly the order the corresponding requests were sent
upstream: in every interleaving, the downstream loop writes response i
to the TLS client connection before it reads or writes response i+1. -/
theorem tunnel_response_order (env : TunnelEnv) (sched : List Choice)
    (n : Nat) :
    before (trun env sched).trace (TEv.writeResp n) (TEv.readResp (n + 1)) ∧
    before (trun env sched).trace (TEv.writeResp n) (TEv.writeResp (n + 1)) :=
  (inv_trun env sched).ord n

/-- C1 witness: in the two-request run of `env1`, the read of response 1
is preceded by the write of response 0. -/
theorem tunnel_response_order_instance :
    (trun env1 sched1).trace = ordL1 ++ TEv.readResp 1 :: ordL2 ∧
    TEv.writeResp 0 ∈ ordL1 :=
  ⟨by decide, (tunnel_response_order env1 sched1 0).1 ordL1 ordL2 (by decide)⟩

/-- C3 counterexample: with the channel already holding 8 unconsumed
requests (and the downstream loop never having received any), one more
upstream step still reads client request number 8 — the upstream loop
does not stop reading the moment 8 requests are unacknowledged, because
`ReadRequest` and `WriteProxy` for the next request happen before the
blocking channel send. -/
theorem tunnel_backpressure_overread :
    (trun env3 (List.replicate 16 Choice.up)).queue.length = 8 ∧
    (trun env3 (List.replicate 16 Choice.up)).trace.countP isRecv = 0 ∧
    (trun env3 (List.replicate 16 Choice.up)).trace.countP (isReadReq 8) = 0 ∧
    (trun env3 (List.replicate 17 Choice.up)).trace.countP (isReadReq 8) = 1 ∧
    (trun env3 (List.replicate 17 Choice.up)).queue.length = 8 ∧
    (trun env3 (List.replicate 17 Choice.up)).trace.countP isRecv = 0 := by
  decide

/-- C3 (amended): the exchange queue is bounded at capacity 8 in every
reachable state, and once 8 requests sit unconsumed in the queue the
upstream loop cannot publish a further request: an upstream step changes
neither the queue nor the number of published requests, and from the
blocking send state the upstream step does nothing at all, until the
downstream loop consumes one (the loop may still read and forward at
most one further request before blocking at the send). -/
theorem tunnel_backpressure (env : TunnelEnv) (sched : List Choice) :
    (trun env sched).queue.length ≤ 8 ∧
    ((trun env sched).queue.length = 8 →
      (upStep env (trun env sched)).queue = (trun env sched).queue ∧
      enqCount (upStep env (trun env sched)).up =
        enqCount (trun env sched).up ∧
      ∀ n, (trun env sched).up = UpSt.send n →
        upStep env (trun env sched) = trun env sched) := by
  refine ⟨(inv_trun env sched).qcap, ?_⟩
  intro hfull
  set s := trun env sched with hss
  have hnlt : ¬ s.queue.length < 8 := by omega
  refine ⟨?_, ?_, ?_⟩
  · rcases hu : s.up with n | n | n
    · rcases hr : env.reqs n with ⟨u, c⟩ | _ | m
      · rcases hw : env.writeUp n with _ | m <;> simp [upStep, hu, hr, hw]
      · simp [upStep, hu, hr]
      · simp [upStep, hu, hr]
    · simp [upStep, hu, hnlt]
    · simp [upStep, hu]
  · rcases hu : s.up with n | n | n
    · rcases hr : env.reqs n with ⟨u, c⟩ | _ | m
      · rcases hw : env.writeUp n with _ | m <;>
          simp [upStep, hu, hr, hw, enqCount]
      · simp [upStep, hu, hr, enqCount]
      · simp [upStep, hu, hr, enqCount]
    · simp [upStep, hu, hnlt]
    · simp [upStep, hu]
  · intro n hn
    simp [upStep, hn, hnlt]

/-- C3 witness for the amended claim: after 16 upstream steps of `env3`
the queue is full and an upstream step leaves it unchanged. -/
theorem tunnel_backpressure_instance :
    (trun env3 (List.replicate 16 Choice.up)).queue.length = 8 ∧
    (upStep env3 (trun env3 (List.replicate 16 Choice.up))).queue =
      (trun env3 (List.replicate 16 Choice.up)).queue :=
  ⟨by decide,
   ((tunnel_backpressure env3 (List.replicate 16 Choice.up)).2 (by decide)).1⟩

/-- C5: every client request forwarded inside the tunnel whose rewritten
URL re-parses successfully is serialized (via `WriteProxy`) with its
target URL rewritten to `https://` ++ host ++ original request-URI, and
with the `Mallory-Session` header set to the decimal `Session` id. -/
theorem tunnel_rewrite (env : TunnelEnv) (sched : List Choice) (n : Nat)
    (fr : FwdReq) (hok : env.parseOk n = true)
    (hm : TEv.writeUpCall n fr ∈ (trun env sched).trace) :
    fr.url = some ("https://" ++ env.host ++ reqUrl env n) ∧
    fr.sess = toString env.sid := by
  have hc := (inv_trun env sched).fwdChar n fr hm
  subst hc
  simp [mkFwd, hok]

/-- C5 witness: the first request of `env1` is forwarded as
`https://h/a` with session header "1". -/
theorem tunnel_rewrite_instance :
    env1.parseOk 0 = true ∧
    TEv.writeUpCall 0 fr0 ∈ (trun env1 sched1).trace ∧
    (fr0.url = some ("https://" ++ env1.host ++ reqUrl env1 0) ∧
      fr0.sess = toString env1.sid) :=
  ⟨rfl, by decide, tunnel_rewrite env1 sched1 0 fr0 rfl (by decide)⟩

/-- C6: the upstream loop has terminated exactly when the channel-close
event is in the trace, and every channel close is immediately preceded
by one of the four admissible causes: EOF on `ReadRequest` (unlogged), a
logged `ReadRequest` error, a logged `WriteProxy` error, or a parsed
request declaring `Close`. -/
theorem up_loop_termination (env : TunnelEnv) (sched : List Choice) :
    ((∃ n, (trun env sched).up = UpSt.done n) ↔
      TEv.closeCh ∈ (trun env sched).trace) ∧
    ∀ l1 l2, (trun env sched).trace = l1 ++ TEv.closeCh :: l2 →
      UpCause env l1 :=
  ⟨(inv_trun env sched).upDone, (inv_trun env sched).upCause⟩

/-- C6 witness: in the `env1` run the upstream loop exited after
enqueuing the `Close`-declaring request 1, and the cause predicate holds
of the prefix before the channel close. -/
theorem up_loop_termination_instance :
    (trun env1 sched1).trace = expU ++ TEv.closeCh :: expL ∧
    UpCause env1 expU :=
  ⟨by decide, (up_loop_termination env1 sched1).2 expU expL (by decide)⟩

/-- C7: the downstream loop has terminated exactly when the final info
record is in the trace; every termination is immediately preceded by one
of the five admissible causes (closed channel observed, logged
`ReadResponse` error, unlogged EOF while writing to the client, logged
write error, or a response declaring `Close`); and the closed channel is
only observed after the upstream loop closed it and the queue was
drained (sends and receives balance). -/
theorem down_loop_termination (env : TunnelEnv) (sched : List Choice) :
    ((∃ d, (trun env sched).down = DownSt.done d) ↔
      TEv.infoClose ∈ (trun env sched).trace) ∧
    (∀ l1 l2, (trun env sched).trace = l1 ++ TEv.infoClose :: l2 →
      DownCause env l1) ∧
    ∀ l1 l2, (trun env sched).trace = l1 ++ TEv.chClosed :: l2 →
      TEv.closeCh ∈ l1 ∧ l1.countP isEnq = l1.countP isRecv :=
  ⟨(inv_trun env sched).downDone, (inv_trun env sched).downCause,
   (inv_trun env sched).drained⟩

/-- C7 witness: in the `env1` run extended by one downstream step, the
downstream loop exits by observing the closed, drained channel. -/
theorem down_loop_termination_instance :
    (trun env1 sched7).trace = expD ++ TEv.infoClose :: [] ∧
    DownCause env1 expD :=
  ⟨by decide, (down_loop_termination env1 sched7).2.1 expD [] (by decide)⟩

/-- C10: the error of re-parsing the rewritten URL is discarded: in
`env10`, whose rewritten URL fails `url.Parse`, the upstream loop
proceeds to serialize (`WriteProxy`) a request whose URL field is nil
(`none`), logs nothing, and continues to the channel send instead of
stopping. -/
theorem url_parse_error_discarded :
    (trun env10 [Choice.up]).trace =
      [TEv.readReq 0, TEv.writeUpCall 0 { url := none, sess := "7" }] ∧
    (trun env10 [Choice.up]).trace.countP isErrLog = 0 ∧
    (trun env10 [Choice.up]).up = UpSt.send 0 := by
  decide

end Mallory
